import Mathlib

/-!
# bongo: the document mapper of `main.go` (Go package `frat`)

A shallow embedding of `Connection.GetEncryptionKey`, `Connection.Save`,
`Connection.FindById` and `Connection.Delete`.

* A Go `string` is a Lean `String`; `[]byte(s)` is `goBytes s`.
* A record handed in as `mod interface{}` is a value `r : ρ`; what Go finds out about
  it by reflection and interface assertion (field `Id`, the methods `Validate`,
  `BeforeCreate`, ...) is a `Model ρ`. A method with a pointer receiver may change the
  record, so a method is a function that returns the record it leaves behind.
* `ToSnake`, `EncryptDocument` and `DecryptDocument` belong to the package but to other
  files; `main.go` only calls them. They are parameters (`Crypt ρ`).
* The `mgo`/`bson` driver is a parameter too (`Driver σ γ`): `σ` is the state of the
  store behind the session, `γ` the state of the object-id generator.
* A method of the record type is taken to return; a panic inside user code is not modelled.
* The calls a function makes are appended to `State.trace`, in the order the source
  makes them; nothing reads the trace.
-/

namespace Frat

/-! ## Values -/

/-- The bytes of a Go string, `[]byte(s)`, each byte a number below 256. -/
def goBytes (s : String) : List Nat :=
  s.toUTF8.data.toList.map UInt8.toNat

/-- The type `bson.ObjectId`: a Go string that carries the raw bytes of the id. -/
structure ObjectId where
  bytes : List Nat
  deriving DecidableEq, Repr

/-- The method `ObjectId.Valid` of bson: `len(id) == 12`. -/
def ObjectId.Valid (id : ObjectId) : Bool :=
  id.bytes.length == 12

/-- A Go `error` value that is not nil; `Option GoError` is a Go `error`. -/
structure GoError where
  msg : String
  deriving DecidableEq, Repr

/-- A value behind `interface{}`: what a field or a document entry can hold. -/
inductive Value where
  | null
  | objectId (id : ObjectId)
  | str (s : String)
  | bin (b : List Nat)
  deriving DecidableEq, Repr

/-- A `map[string]interface{}` (also `bson.M`): the entries, one per key. -/
abbrev Document := List (String × Value)

/-- The index expression `m[k]` on a document: the entry, or nil when there is none. -/
def docIndex (m : Document) (k : String) : Value :=
  (m.lookup k).getD Value.null

/-! ## Configuration and connection (main.go 16-26) -/

/-- The struct `Config`. `EncryptionKeyPerCollection` is a `map[string]string`; `none` is the
nil map. -/
structure Config where
  ConnectionString : String
  Database : String
  EncryptionKey : String
  EncryptionKeyPerCollection : Option (List (String × String))
  deriving DecidableEq, Repr

/-- The struct `Connection`. The session is the store state carried by `State`. -/
structure Connection where
  Config : Config
  deriving DecidableEq, Repr

/-- The two-valued index expression `key, has := m[k]` on a `map[string]string`: a nil map and a
map without the key both give `("", false)`. -/
def mapIndex (m : Option (List (String × String))) (k : String) : String × Bool :=
  match m with
  | none => ("", false)
  | some entries =>
    match entries.lookup k with
    | some v => (v, true)
    | none => ("", false)

/-- The method `Connection.GetEncryptionKey` (main.go 57-66). -/
def Connection.GetEncryptionKey (m : Connection) (collection : String) : List Nat :=
  let (key, has) := mapIndex m.Config.EncryptionKeyPerCollection collection
  if has then
    goBytes key
  else
    goBytes m.Config.EncryptionKey

/-! ## The record type, the package's other files, the driver -/

/-- What Go learns about the dynamic type of `mod`.

* `typeName`: `reflect.Indirect(reflect.ValueOf(mod)).Type().Name()`.
* `hasIdField`: the boolean of `reflections.HasField(mod, "Id")`.
* `getIdField`: `reflections.GetField(mod, "Id")`, a value with a nil error or a nil value
  with an error.
* `setIdField`: `reflections.SetField(mod, "Id", id)`; an error also stands for the panic
  of `SetField` on a value that is no pointer (Save treats the two alike).
* `Validate`, `BeforeCreate`, ...: the method when the type asserts to the interface,
  `none` when it does not.
* `set_get`: a field that was set reads back as the value set (Go's reflection). -/
structure Model (ρ : Type) where
  typeName : String
  hasIdField : Bool
  getIdField : ρ → Except GoError Value
  setIdField : ρ → ObjectId → Except GoError ρ
  Validate : Option (ρ → List String × ρ)
  BeforeCreate : Option (ρ → ρ)
  BeforeUpdate : Option (ρ → ρ)
  BeforeSave : Option (ρ → ρ)
  AfterFind : Option (ρ → ρ)
  set_get : ∀ r id r1, setIdField r id = Except.ok r1 → getIdField r1 = Except.ok (Value.objectId id)

/-- How a call `DecryptDocument(key, returnMap, mod)` ends, seen from the call site, which is
an expression statement: control comes back (whatever the function would report is dropped;
`failed` says whether the decoding failed), or the call panics. Either way the record may have
been written to. -/
inductive DecryptOutcome (ρ : Type) where
  | returned (r : ρ) (failed : Bool)
  | panicked (r : ρ)
  deriving DecidableEq, Repr

/-- The functions of the package that `main.go` calls and other files define.
`EncryptDocument` returns one value, so it can fail only by panicking: `none`. -/
structure Crypt (ρ : Type) where
  ToSnake : String → String
  EncryptDocument : List Nat → ρ → Option Document
  DecryptDocument : List Nat → Document → ρ → DecryptOutcome ρ

/-- The driver (`mgo`, `bson`). The store calls take the database and the collection name of
`Session.DB(db).C(name)`; `NewObjectId` returns a valid (12-byte) id. -/
structure Driver (σ γ : Type) where
  NewObjectId : γ → ObjectId × γ
  UpsertId : σ → String → String → Value → Document → Option GoError × σ
  FindIdOne : σ → String → String → ObjectId → Except GoError Document × σ
  Remove : σ → String → String → Document → Option GoError × σ
  NewObjectId_valid : ∀ g, (NewObjectId g).1.Valid = true

/-! ## State and trace -/

/-- The optional methods Save and FindById call. -/
inductive Hook where
  | BeforeCreate
  | BeforeUpdate
  | BeforeSave
  | AfterFind
  deriving DecidableEq, Repr

/-- One call made by the mapper, with its arguments. -/
inductive Event where
  | newObjectId (id : ObjectId)
  | validate (errs : List String)
  | hook (h : Hook)
  | encrypt (key : List Nat)
  | decrypt (key : List Nat) (doc : Document)
  | upsertId (db col : String) (id : Value) (doc : Document)
  | findId (db col : String) (id : ObjectId)
  | remove (db col : String) (selector : Document)
  deriving DecidableEq, Repr

/-- The record behind `mod`, the store, the id generator, and the calls made so far. -/
structure State (ρ σ γ : Type) where
  mod : ρ
  store : σ
  gen : γ
  trace : List Event

/-- How a call ends: it returns `a`, or it does not return (a panic that leaves the function,
or `log.Fatal` in Save's deferred recover). -/
inductive Outcome (α : Type) where
  | returned (a : α)
  | aborted (why : String)
  deriving DecidableEq, Repr

/-- The calls made between two states of one run. -/
def State.since {ρ σ γ : Type} (before after : State ρ σ γ) : List Event :=
  after.trace.drop before.trace.length

/-! ## The mapper (main.go 68-177) -/

section Mapper

variable {ρ σ γ : Type}

/-- The function `getCollectionName` (main.go 69-71): `ToSnake` of the type's name. -/
def getCollectionName (M : Model ρ) (K : Crypt ρ) : String :=
  K.ToSnake M.typeName

/-- The function `ensureIdField` (main.go 74-79): `none` when it returns, the panic value when
the model has no `Id` field. -/
def ensureIdField (M : Model ρ) : Option String :=
  if !M.hasIdField then
    some "Failed to save - model must have Id field"
  else
    none

/-- An optional hook: `if hook, ok := mod.(interface{H()}); ok { hook.H() }`. -/
def callHook (h : Hook) (method : Option (ρ → ρ)) (s : State ρ σ γ) : State ρ σ γ :=
  match method with
  | some f => { s with mod := f s.mod, trace := s.trace ++ [Event.hook h] }
  | none => s

/-- Save, main.go 101-112: with an invalid `id`, make a new one and set the field; the
boolean is `isNew`. An error of `SetField` is the panic value. -/
def saveIdentity (M : Model ρ) (D : Driver σ γ) (id : ObjectId) (s : State ρ σ γ) :
    Except String (Bool × State ρ σ γ) :=
  if !id.Valid then
    let fresh := D.NewObjectId s.gen
    match M.setIdField s.mod fresh.1 with
    | Except.error err => Except.error err.msg
    | Except.ok r =>
      Except.ok (true, { s with mod := r, gen := fresh.2, trace := s.trace ++ [Event.newObjectId fresh.1] })
  else
    Except.ok (false, s)

/-- Save, main.go 114-122: call `Validate` when the type has it; the list is `errs` (empty
when the type has no `Validate`). -/
def saveValidate (M : Model ρ) (s : State ρ σ γ) : List String × State ρ σ γ :=
  match M.Validate with
  | some v =>
    ((v s.mod).1, { s with mod := (v s.mod).2, trace := s.trace ++ [Event.validate (v s.mod).1] })
  | none => ([], s)

/-- Save, main.go 125-135: the create-or-update hook, then the save hook. -/
def saveHooks (M : Model ρ) (isNew : Bool) (s : State ρ σ γ) : State ρ σ γ :=
  let s1 :=
    if isNew then
      callHook Hook.BeforeCreate M.BeforeCreate s
    else
      callHook Hook.BeforeUpdate M.BeforeUpdate s
  callHook Hook.BeforeSave M.BeforeSave s1

/-- Save, main.go 137-143: collection name, key, encode, upsert; returns `err, nil`. -/
def savePersist (c : Connection) (M : Model ρ) (K : Crypt ρ) (D : Driver σ γ) (s : State ρ σ γ) :
    Outcome (Option GoError × List String) × State ρ σ γ :=
  let colname := getCollectionName M K
  let key := c.GetEncryptionKey colname
  match K.EncryptDocument key s.mod with
  | none => (Outcome.aborted "EncryptDocument panicked", { s with trace := s.trace ++ [Event.encrypt key] })
  | some modelMap =>
    let res := D.UpsertId s.store c.Config.Database colname (docIndex modelMap "_id") modelMap
    (Outcome.returned (res.1, []),
      { s with
        store := res.2,
        trace := s.trace ++
          [Event.encrypt key, Event.upsertId c.Config.Database colname (docIndex modelMap "_id") modelMap] })

/-- The method `Connection.Save` (main.go 83-144). It returns `(err, messages)`, a nil slice
being `[]`. Every panic ends in the deferred `log.Fatal`: `aborted`. -/
def Connection.Save (c : Connection) (M : Model ρ) (K : Crypt ρ) (D : Driver σ γ) (s : State ρ σ γ) :
    Outcome (Option GoError × List String) × State ρ σ γ :=
  -- 1) Make sure mod has an Id field
  match ensureIdField M with
  | some p => (Outcome.aborted p, s)
  | none =>
    -- 2) f, err := reflections.GetField(mod, "Id"); id := f.(bson.ObjectId)
    --    With an error f is nil and the assertion panics, before `if err != nil { panic(err) }`.
    match M.getIdField s.mod with
    | Except.error _ => (Outcome.aborted "interface conversion: interface is nil, not bson.ObjectId", s)
    | Except.ok (Value.objectId id) =>
      match saveIdentity M D id s with
      | Except.error p => (Outcome.aborted p, s)
      | Except.ok (isNew, s1) =>
        -- Validate?
        let checked := saveValidate M s1
        if checked.1.length > 0 then
          (Outcome.returned (some (GoError.mk "Validation failed"), checked.1), checked.2)
        else
          savePersist c M K D (saveHooks M isNew checked.2)
    | Except.ok _ => (Outcome.aborted "interface conversion: interface is not bson.ObjectId", s)

/-- The method `Connection.FindById` (main.go 147-164). Nothing recovers a panic here. -/
def Connection.FindById (c : Connection) (M : Model ρ) (K : Crypt ρ) (D : Driver σ γ)
    (id : ObjectId) (s : State ρ σ γ) : Outcome (Option GoError) × State ρ σ γ :=
  let colname := getCollectionName M K
  let found := D.FindIdOne s.store c.Config.Database colname id
  match found.1 with
  | Except.error err =>
    (Outcome.returned (some err),
      { s with store := found.2, trace := s.trace ++ [Event.findId c.Config.Database colname id] })
  | Except.ok returnMap =>
    let key := c.GetEncryptionKey colname
    let tr := s.trace ++ [Event.findId c.Config.Database colname id, Event.decrypt key returnMap]
    match K.DecryptDocument key returnMap s.mod with
    | DecryptOutcome.panicked r =>
      (Outcome.aborted "DecryptDocument panicked", { s with mod := r, store := found.2, trace := tr })
    | DecryptOutcome.returned r _ =>
      (Outcome.returned none,
        callHook Hook.AfterFind M.AfterFind { s with mod := r, store := found.2, trace := tr })

/-- The method `Connection.Delete` (main.go 167-177). Nothing recovers a panic here. -/
def Connection.Delete (c : Connection) (M : Model ρ) (K : Crypt ρ) (D : Driver σ γ)
    (s : State ρ σ γ) : Outcome (Option GoError) × State ρ σ γ :=
  match ensureIdField M with
  | some p => (Outcome.aborted p, s)
  | none =>
    match M.getIdField s.mod with
    | Except.error err => (Outcome.returned (some err), s)
    | Except.ok (Value.objectId id) =>
      let colname := getCollectionName M K
      let selector : Document := [("_id", Value.objectId id)]
      let res := D.Remove s.store c.Config.Database colname selector
      (Outcome.returned res.1,
        { s with store := res.2, trace := s.trace ++ [Event.remove c.Config.Database colname selector] })
    | Except.ok _ => (Outcome.aborted "interface conversion: interface is not bson.ObjectId", s)

end Mapper

/-! ## What Save is expected to do, in terms of the record -/

section Expected

variable {ρ σ γ : Type}

/-- The messages `Validate` returns on `r`; none when the type has no `Validate`. -/
def validationOf (M : Model ρ) (r : ρ) : List String :=
  match M.Validate with
  | some v => (v r).1
  | none => []

/-- The record `Validate` leaves behind. -/
def afterValidate (M : Model ρ) (r : ρ) : ρ :=
  match M.Validate with
  | some v => (v r).2
  | none => r

/-- The record an optional hook leaves behind. -/
def applyHook (method : Option (ρ → ρ)) (r : ρ) : ρ :=
  match method with
  | some f => f r
  | none => r

/-- The record after the create-or-update hook and then the save hook. -/
def afterHooks (M : Model ρ) (isNew : Bool) (r : ρ) : ρ :=
  applyHook M.BeforeSave (applyHook (if isNew then M.BeforeCreate else M.BeforeUpdate) r)

/-- The hook calls in the fixed order: `BeforeCreate` (new) or `BeforeUpdate` (existing) when
the type has it, then `BeforeSave` when the type has it. -/
def hookCalls (M : Model ρ) (isNew : Bool) : List Hook :=
  (if isNew then
      (if M.BeforeCreate.isSome then [Hook.BeforeCreate] else [])
    else
      (if M.BeforeUpdate.isSome then [Hook.BeforeUpdate] else []))
    ++ (if M.BeforeSave.isSome then [Hook.BeforeSave] else [])

/-- The calls of step 2: a new id when `id` is not valid. -/
def idEvents (D : Driver σ γ) (g : γ) (id : ObjectId) : List Event :=
  if id.Valid then [] else [Event.newObjectId (D.NewObjectId g).1]

/-- The call of `Validate` on `r`, when the type has it. -/
def validateEvents (M : Model ρ) (r : ρ) : List Event :=
  match M.Validate with
  | some v => [Event.validate (v r).1]
  | none => []

/-- The calls of lines 137-141 on the record `r`: the encoding, and the upsert when the encoding
comes back with a document. -/
def persistEvents (c : Connection) (M : Model ρ) (K : Crypt ρ) (r : ρ) : List Event :=
  match K.EncryptDocument (c.GetEncryptionKey (K.ToSnake M.typeName)) r with
  | none => [Event.encrypt (c.GetEncryptionKey (K.ToSnake M.typeName))]
  | some doc =>
    [Event.encrypt (c.GetEncryptionKey (K.ToSnake M.typeName)),
      Event.upsertId c.Config.Database (K.ToSnake M.typeName) (docIndex doc "_id") doc]

/-- The record `r1` is the one Save validates, for a record that enters with the id `id`: the
record itself when `id` is valid, the record with the new id set otherwise. -/
def RecordAtValidation (M : Model ρ) (D : Driver σ γ) (s : State ρ σ γ) (id : ObjectId)
    (r1 : ρ) : Prop :=
  (id.Valid = true ∧ r1 = s.mod) ∨
  (id.Valid = false ∧ M.setIdField s.mod (D.NewObjectId s.gen).1 = Except.ok r1)

/-- Neither `Validate` nor a before-hook of the type changes what the `Id` field reads as. -/
def Model.KeepsId (M : Model ρ) : Prop :=
  (∀ v, M.Validate = some v → ∀ r, M.getIdField (v r).2 = M.getIdField r) ∧
  (∀ f, M.BeforeCreate = some f → ∀ r, M.getIdField (f r) = M.getIdField r) ∧
  (∀ f, M.BeforeUpdate = some f → ∀ r, M.getIdField (f r) = M.getIdField r) ∧
  (∀ f, M.BeforeSave = some f → ∀ r, M.getIdField (f r) = M.getIdField r)

/-- The event is a call of a hook. -/
def Event.isHook : Event → Bool
  | Event.hook _ => true
  | _ => false

/-- The event is an upsert. -/
def Event.isUpsert : Event → Bool
  | Event.upsertId _ _ _ _ => true
  | _ => false

/-- The event is a call to the store. -/
def Event.isStoreCall : Event → Bool
  | Event.upsertId _ _ _ _ => true
  | Event.findId _ _ _ => true
  | Event.remove _ _ _ => true
  | _ => false

/-- The event is a call of `EncryptDocument`. -/
def Event.isEncrypt : Event → Bool
  | Event.encrypt _ => true
  | _ => false

/-- The event is the making of a new id. -/
def Event.isNewObjectId : Event → Bool
  | Event.newObjectId _ => true
  | _ => false

end Expected

/-! ## Sample inputs

A record type, the package's other functions and a driver, as small as they can be, for
evaluating the mapper on concrete inputs. -/

/-- A record type `type User struct { Id bson.ObjectId; Name string }`, handed over by pointer. -/
structure User where
  Id : ObjectId
  Name : String
  deriving DecidableEq, Repr

/-- The model of `*User` with the given methods. -/
def userModel (validate : Option (User → List String × User))
    (beforeCreate beforeUpdate beforeSave afterFind : Option (User → User)) : Model User where
  typeName := "User"
  hasIdField := true
  getIdField := fun u => Except.ok (Value.objectId u.Id)
  setIdField := fun u id => Except.ok { u with Id := id }
  Validate := validate
  BeforeCreate := beforeCreate
  BeforeUpdate := beforeUpdate
  BeforeSave := beforeSave
  AfterFind := afterFind
  set_get := by
    intro r id r1 h
    cases h
    rfl

/-- A method `Validate` that asks for a name and leaves the record alone. -/
def requireName (u : User) : List String × User :=
  (if u.Name = "" then ["Name is required", "Name must not be blank"] else [], u)

/-- A hook that appends `tag` to the name. -/
def tagName (tag : String) (u : User) : User :=
  { u with Name := u.Name ++ tag }

/-- A hook that writes `id` into the `Id` field. -/
def overwriteId (id : ObjectId) (u : User) : User :=
  { u with Id := id }

/-- The zero `ObjectId`, the empty string. -/
def zeroId : ObjectId :=
  ObjectId.mk []

/-- A valid id that the sample generator never makes. -/
def otherId : ObjectId :=
  ObjectId.mk [9, 9, 9, 9, 9, 9, 9, 9, 9, 9, 9, 9]

/-- A sample codec: the document carries the id under `_id`, the name, and the key as a tag;
decoding with another key fails, by a panic or by coming back, as `panics` says. -/
def userCrypt (panics : Bool) : Crypt User where
  ToSnake := fun name => if name = "User" then "user" else name
  EncryptDocument := fun key u =>
    if key.length = 0 then
      none
    else
      some [("_id", Value.objectId u.Id), ("Name", Value.str u.Name), ("tag", Value.bin key)]
  DecryptDocument := fun key doc u =>
    if docIndex doc "tag" = Value.bin key then
      match docIndex doc "_id", docIndex doc "Name" with
      | Value.objectId id, Value.str name => DecryptOutcome.returned { Id := id, Name := name } false
      | _, _ => DecryptOutcome.returned u true
    else if panics then
      DecryptOutcome.panicked u
    else
      DecryptOutcome.returned u true

/-- A store in memory: the documents by database, collection and id; `down` makes every call
fail. -/
structure MemStore where
  docs : List ((String × String × Value) × Document)
  down : Bool
  deriving DecidableEq, Repr

/-- A sample driver over `MemStore`, with a counter for the ids. -/
def memDriver : Driver MemStore Nat where
  NewObjectId := fun g =>
    (ObjectId.mk [0, 0, 0, 0, 0, 0, 0, 0, 0, g / 65536 % 256, g / 256 % 256, g % 256], g + 1)
  UpsertId := fun st db col id doc =>
    if st.down then
      (some (GoError.mk "no reachable servers"), st)
    else
      (none, { st with docs := ((db, col, id), doc) :: st.docs.filter (fun e => e.1 ≠ (db, col, id)) })
  FindIdOne := fun st db col id =>
    if st.down then
      (Except.error (GoError.mk "no reachable servers"), st)
    else
      match st.docs.lookup (db, col, Value.objectId id) with
      | some doc => (Except.ok doc, st)
      | none => (Except.error (GoError.mk "not found"), st)
  Remove := fun st db col selector =>
    if st.down then
      (some (GoError.mk "no reachable servers"), st)
    else if (st.docs.lookup (db, col, docIndex selector "_id")).isSome then
      (none, { st with docs := st.docs.filter (fun e => e.1 ≠ (db, col, docIndex selector "_id")) })
    else
      (some (GoError.mk "not found"), st)
  NewObjectId_valid := by
    intro g
    rfl

/-- A sample connection: a global key and one override, for the collection `user`. -/
def sampleConn : Connection :=
  { Config :=
      { ConnectionString := "localhost",
        Database := "app",
        EncryptionKey := "global",
        EncryptionKeyPerCollection := some [("user", "uk"), ("audit_log", "")] } }

/-- A state with the record `u`, an empty store that is up, and an empty trace. -/
def startState (u : User) : State User MemStore Nat :=
  { mod := u, store := { docs := [], down := false }, gen := 1, trace := [] }


/-- A sample model: `Validate` asks for a name, all four hooks tag the name. -/
def fullModel : Model User :=
  userModel (some requireName) (some (tagName "+c")) (some (tagName "+u")) (some (tagName "+s"))
    (some (tagName "+f"))

/-- A state whose store is down. -/
def downState (u : User) : State User MemStore Nat :=
  { mod := u, store := { docs := [], down := true }, gen := 1, trace := [] }

/-- The id the sample generator makes first, from the counter 1. -/
def firstId : ObjectId :=
  ObjectId.mk [0, 0, 0, 0, 0, 0, 0, 0, 0, 0, 0, 1]

/-- A method `Validate` with a pointer receiver that rejects every record and resets its id. -/
def rejectAndClearId (u : User) : List String × User :=
  (["Id is reset"], { u with Id := zeroId })

/-- A document of the collection `user` that was encoded under the key `old`. -/
def oldKeyDoc : Document :=
  [("_id", Value.objectId otherId), ("Name", Value.str "ann"), ("tag", Value.bin (goBytes "old"))]

/-- A state whose store holds `oldKeyDoc` under `otherId`; the target record is `u`. -/
def storedState (u : User) : State User MemStore Nat :=
  { mod := u,
    store := { docs := [(("app", "user", Value.objectId otherId), oldKeyDoc)], down := false },
    gen := 1,
    trace := [] }

end Frat

/-! ## Lemmas -/

namespace Frat

section Lemmas

variable {ρ σ γ : Type}

theorem lookup_of_mem (entries : List (String × String)) (k v : String)
    (hnd : (entries.map Prod.fst).Nodup) (hmem : (k, v) ∈ entries) :
    entries.lookup k = some v := by
  induction entries with
  | nil => simp at hmem
  | cons e es ih =>
    obtain ⟨k1, v1⟩ := e
    simp only [List.map_cons, List.nodup_cons, List.mem_map, Prod.exists, exists_and_right,
      exists_eq_right, not_exists] at hnd
    simp only [List.mem_cons, Prod.mk.injEq] at hmem
    rcases hmem with ⟨rfl, rfl⟩ | hmem
    · simp [List.lookup]
    · have hne : k ≠ k1 := by
        rintro rfl
        exact hnd.1 v hmem
      have hbeq : (k == k1) = false := by simpa using hne
      simp [List.lookup, hbeq, ih hnd.2 hmem]

theorem lookup_none_of_not_mem (entries : List (String × String)) (k : String)
    (h : ∀ v, (k, v) ∉ entries) : entries.lookup k = none := by
  induction entries with
  | nil => rfl
  | cons e es ih =>
    obtain ⟨k1, v1⟩ := e
    have hne : k ≠ k1 := by
      rintro rfl
      exact h v1 (List.mem_cons_self _ _)
    have hbeq : (k == k1) = false := by simpa using hne
    simp only [List.lookup, hbeq]
    exact ih (fun v hv => h v (List.mem_cons_of_mem _ hv))

theorem since_of_trace (s t : State ρ σ γ) (evs : List Event) (h : t.trace = s.trace ++ evs) :
    s.since t = evs := by
  simp [State.since, h]

/-- The result of Save written out, for a record that gets as far as validation. -/
theorem Save_closed_form (c : Connection) (M : Model ρ) (K : Crypt ρ) (D : Driver σ γ)
    (s : State ρ σ γ) (id : ObjectId) (r1 : ρ)
    (hhas : M.hasIdField = true) (hid : M.getIdField s.mod = Except.ok (Value.objectId id))
    (hr1 : RecordAtValidation M D s id r1) :
    c.Save M K D s =
      if (validationOf M r1).length > 0 then
        (Outcome.returned (some (GoError.mk "Validation failed"), validationOf M r1),
          { mod := afterValidate M r1,
            store := s.store,
            gen := if id.Valid then s.gen else (D.NewObjectId s.gen).2,
            trace := s.trace ++ (idEvents D s.gen id ++ validateEvents M r1) })
      else
        match K.EncryptDocument (c.GetEncryptionKey (K.ToSnake M.typeName))
            (afterHooks M (!id.Valid) (afterValidate M r1)) with
        | none =>
          (Outcome.aborted "EncryptDocument panicked",
            { mod := afterHooks M (!id.Valid) (afterValidate M r1),
              store := s.store,
              gen := if id.Valid then s.gen else (D.NewObjectId s.gen).2,
              trace := s.trace ++ (idEvents D s.gen id ++ validateEvents M r1
                ++ (hookCalls M (!id.Valid)).map Event.hook
                ++ [Event.encrypt (c.GetEncryptionKey (K.ToSnake M.typeName))]) })
        | some doc =>
          (Outcome.returned
              ((D.UpsertId s.store c.Config.Database (K.ToSnake M.typeName) (docIndex doc "_id") doc).1,
                []),
            { mod := afterHooks M (!id.Valid) (afterValidate M r1),
              store :=
                (D.UpsertId s.store c.Config.Database (K.ToSnake M.typeName) (docIndex doc "_id") doc).2,
              gen := if id.Valid then s.gen else (D.NewObjectId s.gen).2,
              trace := s.trace ++ (idEvents D s.gen id ++ validateEvents M r1
                ++ (hookCalls M (!id.Valid)).map Event.hook
                ++ [Event.encrypt (c.GetEncryptionKey (K.ToSnake M.typeName)),
                    Event.upsertId c.Config.Database (K.ToSnake M.typeName) (docIndex doc "_id") doc]) }) := by
  rcases hr1 with ⟨hv, rfl⟩ | ⟨hv, hset⟩
  · simp only [Connection.Save, ensureIdField, hhas, hid, saveIdentity, hv, saveValidate,
      validationOf, afterValidate, idEvents, validateEvents, savePersist, saveHooks, callHook,
      afterHooks, applyHook, hookCalls, getCollectionName]
    cases hV : M.Validate <;> cases hU : M.BeforeUpdate <;> cases hS : M.BeforeSave <;>
      simp
  · simp only [Connection.Save, ensureIdField, hhas, hid, saveIdentity, hv, hset, saveValidate,
      validationOf, afterValidate, idEvents, validateEvents, savePersist, saveHooks, callHook,
      afterHooks, applyHook, hookCalls, getCollectionName]
    cases hV : M.Validate <;> cases hC : M.BeforeCreate <;> cases hS : M.BeforeSave <;>
      simp

/-- A Save that returns got as far as validation. -/
theorem Save_returned_reaches_validation (c : Connection) (M : Model ρ) (K : Crypt ρ)
    (D : Driver σ γ) (s : State ρ σ γ) (res : Option GoError × List String)
    (hret : (c.Save M K D s).1 = Outcome.returned res) :
    M.hasIdField = true ∧
    ∃ id r1, M.getIdField s.mod = Except.ok (Value.objectId id) ∧ RecordAtValidation M D s id r1 := by
  cases hhas : M.hasIdField with
  | false => simp [Connection.Save, ensureIdField, hhas] at hret
  | true =>
    refine ⟨rfl, ?_⟩
    cases hid : M.getIdField s.mod with
    | error e => simp [Connection.Save, ensureIdField, hhas, hid] at hret
    | ok val =>
      cases val with
      | objectId id =>
        refine ⟨id, ?_⟩
        cases hv : id.Valid with
        | true => exact ⟨s.mod, rfl, Or.inl ⟨hv, rfl⟩⟩
        | false =>
          cases hset : M.setIdField s.mod (D.NewObjectId s.gen).1 with
          | error e => simp [Connection.Save, ensureIdField, hhas, hid, saveIdentity, hv, hset] at hret
          | ok r1 => exact ⟨r1, rfl, Or.inr ⟨hv, hset⟩⟩
      | null => simp [Connection.Save, ensureIdField, hhas, hid] at hret
      | str _ => simp [Connection.Save, ensureIdField, hhas, hid] at hret
      | bin _ => simp [Connection.Save, ensureIdField, hhas, hid] at hret

/-- The calls Save makes, for a record that gets as far as validation. -/
theorem Save_since (c : Connection) (M : Model ρ) (K : Crypt ρ) (D : Driver σ γ)
    (s : State ρ σ γ) (id : ObjectId) (r1 : ρ)
    (hhas : M.hasIdField = true) (hid : M.getIdField s.mod = Except.ok (Value.objectId id))
    (hr1 : RecordAtValidation M D s id r1) :
    s.since (c.Save M K D s).2 =
      idEvents D s.gen id ++ (validateEvents M r1 ++
        (if (validationOf M r1).length > 0 then []
         else (hookCalls M (!id.Valid)).map Event.hook ++
           persistEvents c M K (afterHooks M (!id.Valid) (afterValidate M r1)))) := by
  have hform := Save_closed_form c M K D s id r1 hhas hid hr1
  apply since_of_trace
  rw [hform]
  by_cases hlen : (validationOf M r1).length > 0
  · simp only [if_pos hlen, List.append_nil, List.append_assoc]
  · simp only [if_neg hlen, persistEvents]
    cases K.EncryptDocument (c.GetEncryptionKey (K.ToSnake M.typeName))
        (afterHooks M (!id.Valid) (afterValidate M r1)) <;> simp

/-- The record Save leaves behind, for a record that gets as far as validation. -/
theorem Save_mod (c : Connection) (M : Model ρ) (K : Crypt ρ) (D : Driver σ γ)
    (s : State ρ σ γ) (id : ObjectId) (r1 : ρ)
    (hhas : M.hasIdField = true) (hid : M.getIdField s.mod = Except.ok (Value.objectId id))
    (hr1 : RecordAtValidation M D s id r1) :
    (c.Save M K D s).2.mod =
      if (validationOf M r1).length > 0 then afterValidate M r1
      else afterHooks M (!id.Valid) (afterValidate M r1) := by
  rw [Save_closed_form c M K D s id r1 hhas hid hr1]
  by_cases hlen : (validationOf M r1).length > 0
  · simp only [if_pos hlen]
  · simp only [if_neg hlen]
    cases K.EncryptDocument (c.GetEncryptionKey (K.ToSnake M.typeName))
        (afterHooks M (!id.Valid) (afterValidate M r1)) <;> rfl

/-- The generator state Save leaves behind, for a record that gets as far as validation. -/
theorem Save_gen (c : Connection) (M : Model ρ) (K : Crypt ρ) (D : Driver σ γ)
    (s : State ρ σ γ) (id : ObjectId) (r1 : ρ)
    (hhas : M.hasIdField = true) (hid : M.getIdField s.mod = Except.ok (Value.objectId id))
    (hr1 : RecordAtValidation M D s id r1) :
    (c.Save M K D s).2.gen = if id.Valid then s.gen else (D.NewObjectId s.gen).2 := by
  rw [Save_closed_form c M K D s id r1 hhas hid hr1]
  by_cases hlen : (validationOf M r1).length > 0
  · simp only [if_pos hlen]
  · simp only [if_neg hlen]
    cases K.EncryptDocument (c.GetEncryptionKey (K.ToSnake M.typeName))
        (afterHooks M (!id.Valid) (afterValidate M r1)) <;> rfl

/-- What the record Save validates reads as its id. -/
theorem getIdField_at_validation (M : Model ρ) (D : Driver σ γ) (s : State ρ σ γ) (id : ObjectId)
    (r1 : ρ) (hid : M.getIdField s.mod = Except.ok (Value.objectId id))
    (hr1 : RecordAtValidation M D s id r1) :
    M.getIdField r1 =
      Except.ok (Value.objectId (if id.Valid then id else (D.NewObjectId s.gen).1)) := by
  rcases hr1 with ⟨hv, rfl⟩ | ⟨hv, hset⟩
  · simp [hv, hid]
  · simp [hv, M.set_get _ _ _ hset]

theorem getIdField_afterValidate (M : Model ρ) (hkeep : M.KeepsId) (r : ρ) :
    M.getIdField (afterValidate M r) = M.getIdField r := by
  unfold afterValidate
  cases hV : M.Validate with
  | none => rfl
  | some v => exact hkeep.1 v hV r

theorem getIdField_applyHook (M : Model ρ) (method : Option (ρ → ρ))
    (h : ∀ f, method = some f → ∀ r, M.getIdField (f r) = M.getIdField r) (r : ρ) :
    M.getIdField (applyHook method r) = M.getIdField r := by
  cases method with
  | none => rfl
  | some f => exact h f rfl r

theorem getIdField_afterHooks (M : Model ρ) (hkeep : M.KeepsId) (isNew : Bool) (r : ρ) :
    M.getIdField (afterHooks M isNew r) = M.getIdField r := by
  obtain ⟨_, hC, hU, hS⟩ := hkeep
  unfold afterHooks
  rw [getIdField_applyHook M M.BeforeSave hS]
  cases isNew
  · exact getIdField_applyHook M M.BeforeUpdate hU r
  · exact getIdField_applyHook M M.BeforeCreate hC r

theorem mem_idEvents (D : Driver σ γ) (g : γ) (id : ObjectId) (e : Event)
    (he : e ∈ idEvents D g id) : e = Event.newObjectId (D.NewObjectId g).1 ∧ id.Valid = false := by
  unfold idEvents at he
  split at he
  · simp at he
  · simp only [List.mem_singleton] at he
    exact ⟨he, by simpa using ‹¬ id.Valid = true›⟩

theorem mem_validateEvents (M : Model ρ) (r : ρ) (e : Event) (he : e ∈ validateEvents M r) :
    e = Event.validate (validationOf M r) := by
  unfold validateEvents at he
  unfold validationOf
  split at he
  · simpa using he
  · simp at he

theorem mem_persistEvents (c : Connection) (M : Model ρ) (K : Crypt ρ) (r : ρ) (e : Event)
    (he : e ∈ persistEvents c M K r) :
    e = Event.encrypt (c.GetEncryptionKey (K.ToSnake M.typeName)) ∨
    ∃ doc, K.EncryptDocument (c.GetEncryptionKey (K.ToSnake M.typeName)) r = some doc ∧
      e = Event.upsertId c.Config.Database (K.ToSnake M.typeName) (docIndex doc "_id") doc := by
  unfold persistEvents at he
  split at he
  · left
    simpa using he
  · rename_i doc hdoc
    simp only [List.mem_cons, List.mem_singleton, List.not_mem_nil, or_false] at he
    rcases he with he | he
    · exact Or.inl he
    · exact Or.inr ⟨doc, hdoc, he⟩

/-- The store Save leaves behind, for a record that gets as far as validation. -/
theorem Save_store (c : Connection) (M : Model ρ) (K : Crypt ρ) (D : Driver σ γ)
    (s : State ρ σ γ) (id : ObjectId) (r1 : ρ)
    (hhas : M.hasIdField = true) (hid : M.getIdField s.mod = Except.ok (Value.objectId id))
    (hr1 : RecordAtValidation M D s id r1) :
    (c.Save M K D s).2.store =
      if (validationOf M r1).length > 0 then s.store
      else
        match K.EncryptDocument (c.GetEncryptionKey (K.ToSnake M.typeName))
            (afterHooks M (!id.Valid) (afterValidate M r1)) with
        | none => s.store
        | some doc =>
          (D.UpsertId s.store c.Config.Database (K.ToSnake M.typeName) (docIndex doc "_id") doc).2 := by
  rw [Save_closed_form c M K D s id r1 hhas hid hr1]
  by_cases hlen : (validationOf M r1).length > 0
  · simp only [if_pos hlen]
  · simp only [if_neg hlen]
    cases K.EncryptDocument (c.GetEncryptionKey (K.ToSnake M.typeName))
        (afterHooks M (!id.Valid) (afterValidate M r1)) <;> rfl

end Lemmas

/-! ## Key resolution -/

/-- Claim C5. `GetEncryptionKey` returns the bytes of the override when the override map has an
entry for exactly this collection name (the empty string included, which gives no bytes), and
the bytes of the global key when the map has no entry for the name or is nil. The function is
total: it has a value for every configuration and name. -/
theorem GetEncryptionKey_override_or_global (m : Connection) (collection : String) :
    (∀ entries v, m.Config.EncryptionKeyPerCollection = some entries →
        (entries.map Prod.fst).Nodup → (collection, v) ∈ entries →
        m.GetEncryptionKey collection = goBytes v) ∧
    (∀ entries, m.Config.EncryptionKeyPerCollection = some entries →
        (entries.map Prod.fst).Nodup → (collection, "") ∈ entries →
        m.GetEncryptionKey collection = []) ∧
    (∀ entries, m.Config.EncryptionKeyPerCollection = some entries →
        (∀ v, (collection, v) ∉ entries) →
        m.GetEncryptionKey collection = goBytes m.Config.EncryptionKey) ∧
    (m.Config.EncryptionKeyPerCollection = none →
        m.GetEncryptionKey collection = goBytes m.Config.EncryptionKey) := by
  refine ⟨?_, ?_, ?_, ?_⟩
  · intro entries v hmap hnd hmem
    simp [Connection.GetEncryptionKey, mapIndex, hmap, lookup_of_mem entries collection v hnd hmem]
  · intro entries hmap hnd hmem
    simp [Connection.GetEncryptionKey, mapIndex, hmap, lookup_of_mem entries collection "" hnd hmem]
    rfl
  · intro entries hmap hno
    simp [Connection.GetEncryptionKey, mapIndex, hmap, lookup_none_of_not_mem entries collection hno]
  · intro hmap
    simp [Connection.GetEncryptionKey, mapIndex, hmap]

/-- The sample configuration: `user` has the override `uk`, `audit_log` the empty override,
`invoice` none, and a connection with a nil map falls back to the global key. -/
theorem GetEncryptionKey_override_or_global_witness :
    sampleConn.GetEncryptionKey "user" = [117, 107] ∧
    sampleConn.GetEncryptionKey "audit_log" = [] ∧
    sampleConn.GetEncryptionKey "invoice" = goBytes "global" ∧
    (Connection.mk { sampleConn.Config with EncryptionKeyPerCollection := none }).GetEncryptionKey
      "user" = goBytes "global" :=
  ⟨(GetEncryptionKey_override_or_global sampleConn "user").1 _ "uk" rfl (by decide) (by decide),
   (GetEncryptionKey_override_or_global sampleConn "audit_log").2.1 _ rfl (by decide) (by decide),
   (GetEncryptionKey_override_or_global sampleConn "invoice").2.2.1 _ rfl (by intro v hv; simp at hv),
   (GetEncryptionKey_override_or_global _ "user").2.2.2 rfl⟩

/-! ## Find by id -/

section Find

variable {ρ σ γ : Type}

/-- Claim C6. When the store's find-by-id reports an error, `FindById` returns that error, the
target record is what it was before the call, and the one call made is the find-by-id: nothing
is decoded and `AfterFind` is not invoked. -/
theorem FindById_store_error (c : Connection) (M : Model ρ) (K : Crypt ρ) (D : Driver σ γ)
    (id : ObjectId) (s : State ρ σ γ) (err : GoError)
    (h : (D.FindIdOne s.store c.Config.Database (getCollectionName M K) id).1 = Except.error err) :
    (c.FindById M K D id s).1 = Outcome.returned (some err) ∧
    (c.FindById M K D id s).2.mod = s.mod ∧
    s.since (c.FindById M K D id s).2 =
      [Event.findId c.Config.Database (getCollectionName M K) id] := by
  refine ⟨?_, ?_, ?_⟩
  · simp [Connection.FindById, h]
  · simp [Connection.FindById, h]
  · apply since_of_trace
    simp [Connection.FindById, h]

/-- An id the store does not hold: `FindById` returns the store's `not found`, and the record,
which has an `AfterFind` hook, is untouched. -/
theorem FindById_store_error_witness :
    (sampleConn.FindById (userModel none none none none (some (tagName "!"))) (userCrypt false)
        memDriver otherId (startState (User.mk zeroId "ann"))).1
      = Outcome.returned (some (GoError.mk "not found")) ∧
    (sampleConn.FindById (userModel none none none none (some (tagName "!"))) (userCrypt false)
        memDriver otherId (startState (User.mk zeroId "ann"))).2.mod = User.mk zeroId "ann" ∧
    (startState (User.mk zeroId "ann")).since
        (sampleConn.FindById (userModel none none none none (some (tagName "!"))) (userCrypt false)
          memDriver otherId (startState (User.mk zeroId "ann"))).2
      = [Event.findId "app" "user" otherId] :=
  FindById_store_error sampleConn (userModel none none none none (some (tagName "!")))
    (userCrypt false) memDriver otherId (startState (User.mk zeroId "ann"))
    (GoError.mk "not found") rfl

/-- Claim C7, as stated, fails. The stored document was encoded under the key `old` and the
configured key for `user` is `uk`, so decoding fails. With a decoder that comes back from a
failure, `FindById` returns nil; with one that panics, `FindById` does not return. In neither
case does it return a non-nil error. -/
theorem FindById_decode_failure_counterexample :
    (userCrypt false).DecryptDocument (sampleConn.GetEncryptionKey "user") oldKeyDoc
        (User.mk zeroId "") = DecryptOutcome.returned (User.mk zeroId "") true ∧
    (sampleConn.FindById (userModel none none none none none) (userCrypt false) memDriver otherId
        (storedState (User.mk zeroId ""))).1 = Outcome.returned none ∧
    (userCrypt true).DecryptDocument (sampleConn.GetEncryptionKey "user") oldKeyDoc
        (User.mk zeroId "") = DecryptOutcome.panicked (User.mk zeroId "") ∧
    (sampleConn.FindById (userModel none none none none none) (userCrypt true) memDriver otherId
        (storedState (User.mk zeroId ""))).1 = Outcome.aborted "DecryptDocument panicked" := by
  decide

/-- Claim C7, amended. The only error `FindById` returns is the error of the store's find-by-id.
Once the store has found the document, `FindById` returns nil whenever `DecryptDocument` comes
back, whether the decoding failed or not, and does not return when `DecryptDocument` panics. -/
theorem FindById_returns_only_store_errors (c : Connection) (M : Model ρ) (K : Crypt ρ)
    (D : Driver σ γ) (id : ObjectId) (s : State ρ σ γ) :
    (∀ err, (c.FindById M K D id s).1 = Outcome.returned (some err) →
      (D.FindIdOne s.store c.Config.Database (getCollectionName M K) id).1 = Except.error err) ∧
    (∀ doc, (D.FindIdOne s.store c.Config.Database (getCollectionName M K) id).1 = Except.ok doc →
      (∀ r failed,
        K.DecryptDocument (c.GetEncryptionKey (getCollectionName M K)) doc s.mod
          = DecryptOutcome.returned r failed →
        (c.FindById M K D id s).1 = Outcome.returned none) ∧
      (∀ r,
        K.DecryptDocument (c.GetEncryptionKey (getCollectionName M K)) doc s.mod
          = DecryptOutcome.panicked r →
        (c.FindById M K D id s).1 = Outcome.aborted "DecryptDocument panicked")) := by
  refine ⟨?_, ?_⟩
  · intro err h
    unfold Connection.FindById at h
    cases hf : (D.FindIdOne s.store c.Config.Database (getCollectionName M K) id).1 with
    | error e =>
      simp only [hf] at h
      cases h
      rfl
    | ok doc =>
      simp only [hf] at h
      cases hd : K.DecryptDocument (c.GetEncryptionKey (getCollectionName M K)) doc s.mod with
      | returned r failed => simp [hd] at h
      | panicked r => simp [hd] at h
  · intro doc hf
    refine ⟨?_, ?_⟩
    · intro r failed hd
      simp [Connection.FindById, hf, hd]
    · intro r hd
      simp [Connection.FindById, hf, hd]

/-- The stored document decodes with a failure under the configured key, and `FindById` returns
nil; with the panicking decoder it does not return. -/
theorem FindById_returns_only_store_errors_witness :
    (sampleConn.FindById (userModel none none none none none) (userCrypt false) memDriver otherId
        (storedState (User.mk zeroId ""))).1 = Outcome.returned none ∧
    (sampleConn.FindById (userModel none none none none none) (userCrypt true) memDriver
        otherId (storedState (User.mk zeroId ""))).1 = Outcome.aborted "DecryptDocument panicked" :=
  ⟨((FindById_returns_only_store_errors sampleConn (userModel none none none none none)
      (userCrypt false) memDriver otherId (storedState (User.mk zeroId ""))).2 oldKeyDoc
      rfl).1 (User.mk zeroId "") true (by decide),
   ((FindById_returns_only_store_errors sampleConn (userModel none none none none none)
      (userCrypt true) memDriver otherId (storedState (User.mk zeroId ""))).2 oldKeyDoc
      rfl).2 (User.mk zeroId "") (by decide)⟩

end Find

/-! ## Delete -/

section Delete

variable {ρ σ γ : Type}

/-- Claim C8. For a record with an `Id` field that holds an `ObjectId`, valid or not, `Delete`
makes one call, a remove on the collection named after the record's type with the selector
`_id` = the record's current id; it calls no validation and no hook, leaves the record as it
was, and returns what the store's remove returned. -/
theorem Delete_removes_by_current_id (c : Connection) (M : Model ρ) (K : Crypt ρ)
    (D : Driver σ γ) (s : State ρ σ γ) (id : ObjectId)
    (hhas : M.hasIdField = true) (hid : M.getIdField s.mod = Except.ok (Value.objectId id)) :
    (c.Delete M K D s).1 = Outcome.returned
      (D.Remove s.store c.Config.Database (K.ToSnake M.typeName) [("_id", Value.objectId id)]).1 ∧
    s.since (c.Delete M K D s).2 =
      [Event.remove c.Config.Database (K.ToSnake M.typeName) [("_id", Value.objectId id)]] ∧
    (c.Delete M K D s).2.mod = s.mod ∧
    (c.Delete M K D s).2.store =
      (D.Remove s.store c.Config.Database (K.ToSnake M.typeName) [("_id", Value.objectId id)]).2 := by
  refine ⟨?_, ?_, ?_, ?_⟩
  · simp [Connection.Delete, ensureIdField, hhas, hid, getCollectionName]
  · apply since_of_trace
    simp [Connection.Delete, ensureIdField, hhas, hid, getCollectionName]
  · simp [Connection.Delete, ensureIdField, hhas, hid]
  · simp [Connection.Delete, ensureIdField, hhas, hid, getCollectionName]

/-- A record whose identity is unset, with `Validate` and every hook defined: `Delete` issues
the remove with the zero id and hands back the store's `not found`. -/
theorem Delete_removes_by_current_id_witness :
    (sampleConn.Delete
        (userModel (some requireName) (some (tagName "c")) (some (tagName "u")) (some (tagName "s"))
          (some (tagName "f")))
        (userCrypt false) memDriver (startState (User.mk zeroId ""))).1
      = Outcome.returned (some (GoError.mk "not found")) ∧
    (startState (User.mk zeroId "")).since
        (sampleConn.Delete
          (userModel (some requireName) (some (tagName "c")) (some (tagName "u"))
            (some (tagName "s")) (some (tagName "f")))
          (userCrypt false) memDriver (startState (User.mk zeroId ""))).2
      = [Event.remove "app" "user" [("_id", Value.objectId zeroId)]] :=
  ⟨(Delete_removes_by_current_id sampleConn _ (userCrypt false) memDriver
      (startState (User.mk zeroId "")) zeroId rfl rfl).1,
   (Delete_removes_by_current_id sampleConn _ (userCrypt false) memDriver
      (startState (User.mk zeroId "")) zeroId rfl rfl).2.1⟩

end Delete

/-! ## Save -/

section Save

variable {ρ σ γ : Type}

/-- Claim C1. When `Validate` returns a non-empty list on the record Save validates, Save returns
the error `Validation failed` together with exactly that list; the calls it made are at most
the making of a new id and the one call of `Validate`: no upsert or other store call, no hook;
the store is unchanged. -/
theorem Save_validation_failure (c : Connection) (M : Model ρ) (K : Crypt ρ) (D : Driver σ γ)
    (s : State ρ σ γ) (id : ObjectId) (r1 : ρ) (v : ρ → List String × ρ)
    (hhas : M.hasIdField = true) (hid : M.getIdField s.mod = Except.ok (Value.objectId id))
    (hr1 : RecordAtValidation M D s id r1)
    (hv : M.Validate = some v) (herrs : (v r1).1 ≠ []) :
    (c.Save M K D s).1 = Outcome.returned (some (GoError.mk "Validation failed"), (v r1).1) ∧
    s.since (c.Save M K D s).2 = idEvents D s.gen id ++ [Event.validate (v r1).1] ∧
    (∀ e ∈ s.since (c.Save M K D s).2,
      e.isUpsert = false ∧ e.isStoreCall = false ∧ e.isHook = false ∧ e.isEncrypt = false) ∧
    (c.Save M K D s).2.store = s.store := by
  have hlen : (validationOf M r1).length > 0 := by
    simp only [validationOf, hv]
    exact List.length_pos.mpr herrs
  have hform := Save_closed_form c M K D s id r1 hhas hid hr1
  rw [if_pos hlen] at hform
  have htrace : s.since (c.Save M K D s).2 = idEvents D s.gen id ++ [Event.validate (v r1).1] := by
    apply since_of_trace
    rw [hform]
    simp [validateEvents, hv]
  refine ⟨?_, htrace, ?_, ?_⟩
  · rw [hform]
    simp [validationOf, hv]
  · intro e he
    rw [htrace] at he
    simp only [idEvents, List.mem_append, List.mem_singleton] at he
    rcases he with he | rfl
    · split at he
      · simp at he
      · simp only [List.mem_singleton] at he
        subst he
        simp [Event.isUpsert, Event.isStoreCall, Event.isHook, Event.isEncrypt]
    · simp [Event.isUpsert, Event.isStoreCall, Event.isHook, Event.isEncrypt]
  · rw [hform]

/-- A new record without a name, of a type with `Validate` and all hooks: Save returns the two
messages of `Validate` in their order, and calls only `NewObjectId` and `Validate`. -/
theorem Save_validation_failure_witness :
    (sampleConn.Save fullModel (userCrypt false) memDriver (startState (User.mk zeroId ""))).1
      = Outcome.returned
          (some (GoError.mk "Validation failed"), ["Name is required", "Name must not be blank"]) ∧
    (startState (User.mk zeroId "")).since
        (sampleConn.Save fullModel (userCrypt false) memDriver (startState (User.mk zeroId ""))).2
      = [Event.newObjectId firstId,
         Event.validate ["Name is required", "Name must not be blank"]] :=
  ⟨(Save_validation_failure sampleConn fullModel (userCrypt false) memDriver
      (startState (User.mk zeroId "")) zeroId
      (User.mk firstId "") requireName rfl rfl
      (Or.inr ⟨rfl, rfl⟩) rfl (by decide)).1,
   (Save_validation_failure sampleConn fullModel (userCrypt false) memDriver
      (startState (User.mk zeroId "")) zeroId
      (User.mk firstId "") requireName rfl rfl
      (Or.inr ⟨rfl, rfl⟩) rfl (by decide)).2.1⟩

/-- Claim C2, as stated, fails: on a validation failure both components of the pair are
populated, the error `Validation failed` and the list of messages. -/
theorem Save_result_channels_counterexample :
    (sampleConn.Save (userModel (some requireName) none none none none) (userCrypt false) memDriver
        (startState (User.mk zeroId ""))).1
      = Outcome.returned
          (some (GoError.mk "Validation failed"), ["Name is required", "Name must not be blank"]) := by
  decide

/-- Claim C2, amended. A Save that returns `(err, messages)` is in one of two cases. Validation
failure: the type has `Validate`, `messages` is exactly the list it returned on the record Save
validates, that list is not empty, `err` is the error `Validation failed` (both components are
populated), no store call was made and the store is unchanged. Otherwise `Validate` gave no
message, `messages` is nil, the record as the hooks left it was encoded, exactly one store call
was made, the upsert of that document, `err` is what that upsert returned (a store error, or
nil on success) and the store is the one the upsert left. So messages never come with a store
error, and success is `(nil, nil)`. -/
theorem Save_result_channels (c : Connection) (M : Model ρ) (K : Crypt ρ) (D : Driver σ γ)
    (s : State ρ σ γ) (err : Option GoError) (msgs : List String)
    (hret : (c.Save M K D s).1 = Outcome.returned (err, msgs)) :
    (∃ id r1 v, M.getIdField s.mod = Except.ok (Value.objectId id) ∧
      RecordAtValidation M D s id r1 ∧ M.Validate = some v ∧
      msgs = (v r1).1 ∧ msgs ≠ [] ∧
      err = some (GoError.mk "Validation failed") ∧
      (∀ e ∈ s.since (c.Save M K D s).2, e.isStoreCall = false) ∧
      (c.Save M K D s).2.store = s.store ∧
      (c.Save M K D s).2.mod = (v r1).2) ∨
    (msgs = [] ∧ ∃ id r1 doc, M.getIdField s.mod = Except.ok (Value.objectId id) ∧
      RecordAtValidation M D s id r1 ∧ validationOf M r1 = [] ∧
      K.EncryptDocument (c.GetEncryptionKey (K.ToSnake M.typeName))
        (afterHooks M (!id.Valid) (afterValidate M r1)) = some doc ∧
      err = (D.UpsertId s.store c.Config.Database (K.ToSnake M.typeName) (docIndex doc "_id") doc).1 ∧
      (c.Save M K D s).2.store =
        (D.UpsertId s.store c.Config.Database (K.ToSnake M.typeName) (docIndex doc "_id") doc).2 ∧
      (c.Save M K D s).2.mod = afterHooks M (!id.Valid) (afterValidate M r1) ∧
      (s.since (c.Save M K D s).2).filter Event.isStoreCall =
        [Event.upsertId c.Config.Database (K.ToSnake M.typeName) (docIndex doc "_id") doc]) := by
  obtain ⟨hhas, id, r1, hid, hr1⟩ := Save_returned_reaches_validation c M K D s _ hret
  have hform := Save_closed_form c M K D s id r1 hhas hid hr1
  have hstore := Save_store c M K D s id r1 hhas hid hr1
  have hmod := Save_mod c M K D s id r1 hhas hid hr1
  have hsince := Save_since c M K D s id r1 hhas hid hr1
  by_cases hlen : (validationOf M r1).length > 0
  · rw [if_pos hlen] at hform hstore hmod hsince
    left
    rw [hform] at hret
    simp only [Outcome.returned.injEq, Prod.mk.injEq] at hret
    obtain ⟨herr, hmsgs⟩ := hret
    cases hV : M.Validate with
    | none => simp [validationOf, hV] at hlen
    | some v =>
      have hval : validationOf M r1 = (v r1).1 := by simp [validationOf, hV]
      refine ⟨id, r1, v, hid, hr1, rfl, ?_, ?_, herr.symm, ?_, hstore, ?_⟩
      · rw [← hmsgs, hval]
      · rw [← hmsgs]
        exact List.length_pos.mp hlen
      · intro e he
        rw [hsince] at he
        simp only [List.append_nil] at he
        rcases List.mem_append.mp he with he | he
        · rw [(mem_idEvents D s.gen id e he).1]
          rfl
        · rw [mem_validateEvents M r1 e he]
          rfl
      · rw [hmod]
        simp [afterValidate, hV]
  · rw [if_neg hlen] at hform hstore hmod hsince
    right
    have hpass : validationOf M r1 = [] := by
      cases hl : validationOf M r1 with
      | nil => rfl
      | cons a t => simp [hl] at hlen
    cases henc : K.EncryptDocument (c.GetEncryptionKey (K.ToSnake M.typeName))
        (afterHooks M (!id.Valid) (afterValidate M r1)) with
    | none =>
      rw [henc] at hform
      rw [hform] at hret
      simp at hret
    | some doc =>
      rw [henc] at hform hstore
      simp only at hform hstore
      rw [hform] at hret
      simp only [Outcome.returned.injEq, Prod.mk.injEq] at hret
      obtain ⟨herr, hmsgs⟩ := hret
      refine ⟨hmsgs.symm, id, r1, doc, hid, hr1, hpass, henc, herr.symm, hstore, hmod, ?_⟩
      rw [hsince]
      simp only [idEvents, validateEvents, hookCalls, persistEvents, henc]
      cases hV : M.Validate <;> cases hC : M.BeforeCreate <;> cases hU : M.BeforeUpdate <;>
        cases hS : M.BeforeSave <;> cases hval : id.Valid <;>
        simp [List.filter, Event.isStoreCall]

/-- Three calls: a validation failure (both components populated, the messages are those of
`Validate`, no store call), a store failure (the error alone) and a success `(nil, nil)`. -/
theorem Save_result_channels_witness :
    (∀ e ∈ (startState (User.mk zeroId "")).since
        (sampleConn.Save fullModel (userCrypt false) memDriver (startState (User.mk zeroId ""))).2,
      e.isStoreCall = false) ∧
    (∃ doc, some (GoError.mk "no reachable servers") =
        (memDriver.UpsertId (downState (User.mk zeroId "ann")).store "app" "user"
          (docIndex doc "_id") doc).1 ∧
      ((downState (User.mk zeroId "ann")).since
        (sampleConn.Save fullModel (userCrypt false) memDriver
          (downState (User.mk zeroId "ann"))).2).filter Event.isStoreCall =
        [Event.upsertId "app" "user" (docIndex doc "_id") doc]) ∧
    (∃ doc, (none : Option GoError) =
        (memDriver.UpsertId (startState (User.mk zeroId "ann")).store "app" "user"
          (docIndex doc "_id") doc).1 ∧
      ((startState (User.mk zeroId "ann")).since
        (sampleConn.Save fullModel (userCrypt false) memDriver
          (startState (User.mk zeroId "ann"))).2).filter Event.isStoreCall =
        [Event.upsertId "app" "user" (docIndex doc "_id") doc]) :=
  ⟨(Save_result_channels sampleConn fullModel (userCrypt false) memDriver
      (startState (User.mk zeroId "")) (some (GoError.mk "Validation failed"))
      ["Name is required", "Name must not be blank"] (by decide)).elim
      (fun ⟨_, _, _, _, _, _, _, _, _, h, _⟩ => h) (fun h => absurd h.1 (by decide)),
   (Save_result_channels sampleConn fullModel (userCrypt false) memDriver
      (downState (User.mk zeroId "ann")) (some (GoError.mk "no reachable servers")) []
      (by decide)).elim
      (fun ⟨_, _, _, _, _, _, _, h, _⟩ => absurd rfl h)
      (fun ⟨_, _, _, doc, _, _, _, _, he, _, _, hf⟩ => ⟨doc, he, hf⟩),
   (Save_result_channels sampleConn fullModel (userCrypt false) memDriver
      (startState (User.mk zeroId "ann")) none [] (by decide)).elim
      (fun ⟨_, _, _, _, _, _, _, h, _⟩ => absurd rfl h)
      (fun ⟨_, _, _, doc, _, _, _, _, he, _, _, hf⟩ => ⟨doc, he, hf⟩)⟩

/-- Claim C9, as stated, fails for a `Validate` that writes the `Id` field: with a `Validate`
that resets the id and returns a message, Save returns the validation failure and the record,
which entered unset, carries the zero id, which is not valid; a record that entered with a set
identity does not keep it. -/
theorem Save_validation_failure_identity_counterexample :
    (sampleConn.Save (userModel (some rejectAndClearId) none none none none) (userCrypt false)
        memDriver (startState (User.mk zeroId "ann"))).1
      = Outcome.returned (some (GoError.mk "Validation failed"), ["Id is reset"]) ∧
    (sampleConn.Save (userModel (some rejectAndClearId) none none none none) (userCrypt false)
        memDriver (startState (User.mk zeroId "ann"))).2.mod = User.mk zeroId "ann" ∧
    zeroId.Valid = false ∧
    (sampleConn.Save (userModel (some rejectAndClearId) none none none none) (userCrypt false)
        memDriver (startState (User.mk otherId "ann"))).1
      = Outcome.returned (some (GoError.mk "Validation failed"), ["Id is reset"]) ∧
    (sampleConn.Save (userModel (some rejectAndClearId) none none none none) (userCrypt false)
        memDriver (startState (User.mk otherId "ann"))).2.mod = User.mk zeroId "ann" ∧
    otherId ≠ zeroId := by
  decide

/-- Claim C9, amended. For a `Validate` that leaves the `Id` field of the record it is called on
as it is: on a validation failure Save returns without taking the identity back. The record
Save leaves is the record `Validate` left. A record that entered with an unset identity reads,
after the call, the id `NewObjectId` made in this call, which is valid; a record that entered
with a set identity reads the same id as before, and no new id was made. -/
theorem Save_validation_failure_keeps_identity (c : Connection) (M : Model ρ) (K : Crypt ρ)
    (D : Driver σ γ) (s : State ρ σ γ) (id : ObjectId) (r1 : ρ) (v : ρ → List String × ρ)
    (hhas : M.hasIdField = true) (hid : M.getIdField s.mod = Except.ok (Value.objectId id))
    (hr1 : RecordAtValidation M D s id r1)
    (hv : M.Validate = some v) (herrs : (v r1).1 ≠ [])
    (hkeep : M.getIdField (v r1).2 = M.getIdField r1) :
    (c.Save M K D s).1 = Outcome.returned (some (GoError.mk "Validation failed"), (v r1).1) ∧
    (c.Save M K D s).2.mod = (v r1).2 ∧
    (id.Valid = false →
      M.getIdField (c.Save M K D s).2.mod = Except.ok (Value.objectId (D.NewObjectId s.gen).1) ∧
      (D.NewObjectId s.gen).1.Valid = true ∧
      Event.newObjectId (D.NewObjectId s.gen).1 ∈ s.since (c.Save M K D s).2) ∧
    (id.Valid = true →
      M.getIdField (c.Save M K D s).2.mod = Except.ok (Value.objectId id) ∧
      r1 = s.mod ∧
      ∀ e ∈ s.since (c.Save M K D s).2, e.isNewObjectId = false) := by
  have hlen : (validationOf M r1).length > 0 := by
    simp only [validationOf, hv]
    exact List.length_pos.mpr herrs
  have hmod : (c.Save M K D s).2.mod = (v r1).2 := by
    rw [Save_mod c M K D s id r1 hhas hid hr1, if_pos hlen]
    simp [afterValidate, hv]
  have hsince := Save_since c M K D s id r1 hhas hid hr1
  rw [if_pos hlen] at hsince
  have hget := getIdField_at_validation M D s id r1 hid hr1
  refine ⟨?_, hmod, ?_, ?_⟩
  · rw [Save_closed_form c M K D s id r1 hhas hid hr1, if_pos hlen]
    simp [validationOf, hv]
  · intro hinv
    refine ⟨?_, D.NewObjectId_valid s.gen, ?_⟩
    · rw [hmod, hkeep, hget]
      simp [hinv]
    · rw [hsince]
      simp [idEvents, hinv]
  · intro hval
    refine ⟨?_, ?_, ?_⟩
    · rw [hmod, hkeep, hget]
      simp [hval]
    · rcases hr1 with ⟨_, h⟩ | ⟨h, _⟩
      · exact h
      · rw [hval] at h
        cases h
    · intro e he
      rw [hsince] at he
      simp only [idEvents, hval, if_true, List.nil_append, List.append_nil] at he
      rw [mem_validateEvents M r1 e he]
      rfl

/-- A new record without a name keeps the id made for it; a record that has an id keeps it. -/
theorem Save_validation_failure_keeps_identity_witness :
    fullModel.getIdField
        (sampleConn.Save fullModel (userCrypt false) memDriver (startState (User.mk zeroId ""))).2.mod
      = Except.ok (Value.objectId firstId) ∧
    fullModel.getIdField
        (sampleConn.Save fullModel (userCrypt false) memDriver (startState (User.mk otherId ""))).2.mod
      = Except.ok (Value.objectId otherId) :=
  ⟨((Save_validation_failure_keeps_identity sampleConn fullModel (userCrypt false) memDriver
      (startState (User.mk zeroId "")) zeroId (User.mk firstId "") requireName rfl rfl
      (Or.inr ⟨rfl, rfl⟩) rfl (by decide) rfl).2.2.1 rfl).1,
   ((Save_validation_failure_keeps_identity sampleConn fullModel (userCrypt false) memDriver
      (startState (User.mk otherId "")) otherId (User.mk otherId "") requireName rfl rfl
      (Or.inl ⟨rfl, rfl⟩) rfl (by decide) rfl).2.2.2 rfl).1⟩

/-- Claim C4, as stated, fails for hooks that write the `Id` field. With a `BeforeUpdate` that
writes another id, the record reads a different id after the second Save than after the first
and the two upserts have different keys. With a `BeforeSave` that clears the id, the second
Save finds the identity unset and makes a new id. The sample encoder does put the record's id
in the `_id` entry. -/
theorem Save_twice_counterexample :
    (userModel none none (some (overwriteId otherId)) none none).getIdField
        (sampleConn.Save (userModel none none (some (overwriteId otherId)) none none)
          (userCrypt false) memDriver (startState (User.mk zeroId "ann"))).2.mod
      = Except.ok (Value.objectId firstId) ∧
    (userModel none none (some (overwriteId otherId)) none none).getIdField
        (sampleConn.Save (userModel none none (some (overwriteId otherId)) none none)
          (userCrypt false) memDriver
          (sampleConn.Save (userModel none none (some (overwriteId otherId)) none none)
            (userCrypt false) memDriver (startState (User.mk zeroId "ann"))).2).2.mod
      = Except.ok (Value.objectId otherId) ∧
    ((startState (User.mk zeroId "ann")).since
        (sampleConn.Save (userModel none none (some (overwriteId otherId)) none none)
          (userCrypt false) memDriver (startState (User.mk zeroId "ann"))).2).filter Event.isUpsert
      = [Event.upsertId "app" "user" (Value.objectId firstId)
          [("_id", Value.objectId firstId), ("Name", Value.str "ann"), ("tag", Value.bin [117, 107])]] ∧
    ((sampleConn.Save (userModel none none (some (overwriteId otherId)) none none)
          (userCrypt false) memDriver (startState (User.mk zeroId "ann"))).2.since
        (sampleConn.Save (userModel none none (some (overwriteId otherId)) none none)
          (userCrypt false) memDriver
          (sampleConn.Save (userModel none none (some (overwriteId otherId)) none none)
            (userCrypt false) memDriver (startState (User.mk zeroId "ann"))).2).2).filter
        Event.isUpsert
      = [Event.upsertId "app" "user" (Value.objectId otherId)
          [("_id", Value.objectId otherId), ("Name", Value.str "ann"), ("tag", Value.bin [117, 107])]] ∧
    firstId ≠ otherId ∧
    ((sampleConn.Save (userModel none none none (some (overwriteId zeroId)) none)
          (userCrypt false) memDriver (startState (User.mk zeroId "ann"))).2.since
        (sampleConn.Save (userModel none none none (some (overwriteId zeroId)) none)
          (userCrypt false) memDriver
          (sampleConn.Save (userModel none none none (some (overwriteId zeroId)) none)
            (userCrypt false) memDriver (startState (User.mk zeroId "ann"))).2).2).filter
        Event.isNewObjectId
      = [Event.newObjectId (ObjectId.mk [0, 0, 0, 0, 0, 0, 0, 0, 0, 0, 0, 2])] ∧
    (∀ key u doc, (userCrypt false).EncryptDocument key u = some doc →
      docIndex doc "_id" = Value.objectId u.Id) := by
  refine ⟨rfl, rfl, by decide, by decide, by decide, by decide, ?_⟩
  intro key u doc h
  simp only [userCrypt] at h
  split at h
  · cases h
  · cases h
    rfl

/-- Claim C4, amended. For a record type whose `Validate` and before-hooks do not write the `Id`
field: when a first Save returns, the record reads a valid id; a second Save on the record
leaves it reading the same id, takes the existing branch (no new id is made, the generator is
not used, `BeforeCreate` is not called), and, with an encoder that puts the record's id in the
`_id` entry, every upsert of the two calls is keyed on that id. -/
theorem Save_twice_same_identity (c : Connection) (M : Model ρ) (K : Crypt ρ) (D : Driver σ γ)
    (s : State ρ σ γ) (id : ObjectId) (res1 : Option GoError × List String)
    (hhas : M.hasIdField = true) (hid : M.getIdField s.mod = Except.ok (Value.objectId id))
    (hkeep : M.KeepsId)
    (henc : ∀ key r doc, K.EncryptDocument key r = some doc →
      M.getIdField r = Except.ok (docIndex doc "_id"))
    (hfirst : (c.Save M K D s).1 = Outcome.returned res1) :
    ∃ i : ObjectId, i.Valid = true ∧
      M.getIdField (c.Save M K D s).2.mod = Except.ok (Value.objectId i) ∧
      M.getIdField (c.Save M K D (c.Save M K D s).2).2.mod = Except.ok (Value.objectId i) ∧
      (∀ e ∈ (c.Save M K D s).2.since (c.Save M K D (c.Save M K D s).2).2,
        e.isNewObjectId = false ∧ e ≠ Event.hook Hook.BeforeCreate) ∧
      (c.Save M K D (c.Save M K D s).2).2.gen = (c.Save M K D s).2.gen ∧
      (∀ e ∈ s.since (c.Save M K D s).2 ++
          (c.Save M K D s).2.since (c.Save M K D (c.Save M K D s).2).2,
        ∀ db col k doc, e = Event.upsertId db col k doc → k = Value.objectId i) := by
  obtain ⟨_, id0, r1, hid0, hr1⟩ := Save_returned_reaches_validation c M K D s res1 hfirst
  have hidEq : id0 = id := by
    rw [hid] at hid0
    cases hid0
    rfl
  rw [hidEq] at hr1
  -- what a Save leaves in the `Id` field and which upserts it makes
  have key : ∀ (t : State ρ σ γ) (j : ObjectId) (q : ρ),
      M.getIdField t.mod = Except.ok (Value.objectId j) → RecordAtValidation M D t j q →
      M.getIdField (c.Save M K D t).2.mod =
        Except.ok (Value.objectId (if j.Valid then j else (D.NewObjectId t.gen).1)) ∧
      (∀ e ∈ t.since (c.Save M K D t).2, ∀ db col k doc, e = Event.upsertId db col k doc →
        k = Value.objectId (if j.Valid then j else (D.NewObjectId t.gen).1)) := by
    intro t j q htid hq
    have hget := getIdField_at_validation M D t j q htid hq
    have hhooked : M.getIdField (afterHooks M (!j.Valid) (afterValidate M q)) =
        Except.ok (Value.objectId (if j.Valid then j else (D.NewObjectId t.gen).1)) := by
      rw [getIdField_afterHooks M hkeep, getIdField_afterValidate M hkeep, hget]
    refine ⟨?_, ?_⟩
    · rw [Save_mod c M K D t j q hhas htid hq]
      split
      · rw [getIdField_afterValidate M hkeep, hget]
      · exact hhooked
    · intro e he db col k doc heq
      rw [Save_since c M K D t j q hhas htid hq] at he
      rcases List.mem_append.mp he with he | he
      · rw [(mem_idEvents D t.gen j e he).1] at heq
        cases heq
      rcases List.mem_append.mp he with he | he
      · rw [mem_validateEvents M q e he] at heq
        cases heq
      split at he
      · simp at he
      rcases List.mem_append.mp he with he | he
      · obtain ⟨h, _, rfl⟩ := List.mem_map.mp he
        cases heq
      rcases mem_persistEvents c M K _ e he with he | ⟨doc2, hdoc2, he⟩
      · rw [he] at heq
        cases heq
      · rw [he] at heq
        cases heq
        have h1 := henc _ _ _ hdoc2
        rw [hhooked] at h1
        exact (Except.ok.inj h1).symm
  obtain ⟨hmod1, hups1⟩ := key s id r1 hid hr1
  have hvalid : (if id.Valid then id else (D.NewObjectId s.gen).1).Valid = true := by
    split
    · assumption
    · exact D.NewObjectId_valid s.gen
  have hr2 : RecordAtValidation M D (c.Save M K D s).2
      (if id.Valid then id else (D.NewObjectId s.gen).1) (c.Save M K D s).2.mod :=
    Or.inl ⟨hvalid, rfl⟩
  obtain ⟨hmod2, hups2⟩ := key (c.Save M K D s).2 _ _ hmod1 hr2
  simp only [hvalid, if_true] at hmod2 hups2
  refine ⟨_, hvalid, hmod1, hmod2, ?_, ?_, ?_⟩
  · intro e he
    rw [Save_since c M K D _ _ _ hhas hmod1 hr2] at he
    simp only [idEvents, hvalid, if_true, List.nil_append, Bool.not_true] at he
    rcases List.mem_append.mp he with he | he
    · rw [mem_validateEvents M _ e he]
      exact ⟨rfl, by simp⟩
    split at he
    · simp at he
    rcases List.mem_append.mp he with he | he
    · obtain ⟨h, hh, rfl⟩ := List.mem_map.mp he
      refine ⟨rfl, ?_⟩
      intro hbc
      cases hbc
      simp only [hookCalls] at hh
      cases M.BeforeUpdate <;> cases M.BeforeSave <;> simp at hh
    rcases mem_persistEvents c M K _ e he with he | ⟨doc2, _, he⟩
    · rw [he]
      exact ⟨rfl, by simp⟩
    · rw [he]
      exact ⟨rfl, by simp⟩
  · rw [Save_gen c M K D _ _ _ hhas hmod1 hr2]
    simp [hvalid]
  · intro e he db col k doc heq
    rcases List.mem_append.mp he with he | he
    · exact hups1 e he db col k doc heq
    · exact hups2 e he db col k doc heq


/-- The type with `Validate` and all hooks, none of which writes the id, saved twice from an
unset identity: one valid id is read after both calls. -/
theorem Save_twice_same_identity_witness :
    ∃ i : ObjectId, i.Valid = true ∧
      fullModel.getIdField
          (sampleConn.Save fullModel (userCrypt false) memDriver
            (startState (User.mk zeroId "ann"))).2.mod = Except.ok (Value.objectId i) ∧
      fullModel.getIdField
          (sampleConn.Save fullModel (userCrypt false) memDriver
            (sampleConn.Save fullModel (userCrypt false) memDriver
              (startState (User.mk zeroId "ann"))).2).2.mod = Except.ok (Value.objectId i) :=
  (Save_twice_same_identity sampleConn fullModel (userCrypt false) memDriver
    (startState (User.mk zeroId "ann")) zeroId (none, []) rfl rfl
    ⟨fun v hv r => by cases hv; rfl, fun f hf r => by cases hf; rfl,
      fun f hf r => by cases hf; rfl, fun f hf r => by cases hf; rfl⟩
    (fun key r doc h => by
      simp only [userCrypt] at h
      split at h
      · cases h
      · cases h
        rfl)
    (by decide)).elim (fun i h => ⟨i, h.1, h.2.1, h.2.2.1⟩)

end Save

end Frat
